import Mathlib

/-!
Shallow embedding of `src/bot_assistent.py`, a command-line contact manager.

Modelling conventions:
* Python strings are Lean `String`s (the embedding restricts attention to
  ASCII text, so `str.isdigit` becomes: nonempty and all characters `0`-`9`).
* Python exceptions are explicit `PyErr` values; a function that can raise
  returns `Except PyErr _`; an imperative method that mutates state and can
  raise returns the final state paired with `Option PyErr`.
* `datetime.date` values are `Date` records of year/month/day integers; day
  arithmetic and weekday use the standard civil-from-days conversion.
* Python `dict` (the `AddressBook`, a `UserDict`) is an association list with
  first-occurrence key semantics, written `Book`.
-/

/-- Python exception values, distinguished by type and message. -/
inductive PyErr where
  | valueError (msg : String)
  | keyError (msg : String)
  | indexError (msg : String)
  | other (msg : String)
  deriving DecidableEq

deriving instance DecidableEq for Except

/-- Python `str.isdigit()` restricted to ASCII strings: true iff the string is
nonempty and every character is one of `0`-`9`. -/
def pyIsdigit (s : String) : Bool :=
  !s.data.isEmpty && s.data.all Char.isDigit

/-- `Name.__init__`: rejects the empty (falsy) string, stores the value. -/
def Name.init (name : String) : Except PyErr String :=
  if name = "" then .error (.valueError "Name must not be empty.")
  else .ok name

/-- `Phone.__init__`: `if not phone.isdigit() or len(phone) != 10: raise`. -/
def Phone.init (phone : String) : Except PyErr String :=
  if !pyIsdigit phone || phone.length ≠ 10 then
    .error (.valueError "Phone number must have 10 digits.")
  else .ok phone

/-- A calendar date, as stored by `datetime.date` (year, month, day). -/
structure Date where
  year : Int
  month : Int
  day : Int
  deriving DecidableEq

/-- Leap-year rule used by `datetime`. -/
def isLeap (y : Int) : Bool :=
  y % 4 == 0 && (y % 100 != 0 || y % 400 == 0)

/-- Number of days in a month, as enforced by the `datetime` constructor. -/
def daysInMonth (y m : Int) : Int :=
  if m = 2 then (if isLeap y then 29 else 28)
  else if m = 4 ∨ m = 6 ∨ m = 9 ∨ m = 11 then 30
  else 31

/-- The validity check performed by `datetime(year, month, day)`:
`MINYEAR = 1`, `MAXYEAR = 9999`, month in range, day in range for the month. -/
def validDate (y m d : Int) : Bool :=
  decide (1 ≤ y) && decide (y ≤ 9999) && decide (1 ≤ m) && decide (m ≤ 12) &&
  decide (1 ≤ d) && decide (d ≤ daysInMonth y m)

/-- `datetime(year, month, day)`: validates and builds a date, raising
`ValueError` on an out-of-range component. -/
def datetimeMk (y m d : Int) : Except PyErr Date :=
  if validDate y m d then .ok ⟨y, m, d⟩
  else .error (.valueError "day is out of range for month")

/-- Days since the epoch 1970-01-01 for a civil date (the standard
days-from-civil conversion used to model `date` ordinal arithmetic). -/
def daysFromCivil (dt : Date) : Int :=
  let y := if dt.month ≤ 2 then dt.year - 1 else dt.year
  let era := (if 0 ≤ y then y else y - 399) / 400
  let yoe := y - era * 400
  let mp := if 2 < dt.month then dt.month - 3 else dt.month + 9
  let doy := (153 * mp + 2) / 5 + dt.day - 1
  let doe := yoe * 365 + yoe / 4 - yoe / 100 + doy
  era * 146097 + doe - 719468

/-- Civil date from days since the epoch (inverse conversion; used to model
adding a `timedelta` to a `date`). -/
def civilFromDays (z0 : Int) : Date :=
  let z := z0 + 719468
  let era := (if 0 ≤ z then z else z - 146096) / 146097
  let doe := z - era * 146097
  let yoe := (doe - doe / 1460 + doe / 36524 - doe / 146096) / 365
  let y := yoe + era * 400
  let doy := doe - (365 * yoe + yoe / 4 - yoe / 100)
  let mp := (5 * doy + 2) / 153
  let d := doy - (153 * mp + 2) / 5 + 1
  let m := if mp < 10 then mp + 3 else mp - 9
  ⟨if m ≤ 2 then y + 1 else y, m, d⟩

/-- `date + timedelta(days = n)`. -/
def addDays (dt : Date) (n : Int) : Date :=
  civilFromDays (daysFromCivil dt + n)

/-- `date.weekday()`: Monday = 0 .. Sunday = 6 (1970-01-01 was a Thursday). -/
def weekday (dt : Date) : Int :=
  (daysFromCivil dt + 3) % 7

/-- Python `date` comparison (lexicographic on year, month, day). -/
def dateLt (a b : Date) : Bool :=
  decide (a.year < b.year) ||
  (a.year == b.year &&
    (decide (a.month < b.month) ||
      (a.month == b.month && decide (a.day < b.day))))

/-- `(a - b).days` for two dates. -/
def timedeltaDays (a b : Date) : Int :=
  daysFromCivil a - daysFromCivil b

/-- The ASCII digit character for `n < 10`. -/
def digitChar (n : Nat) : Char :=
  Char.ofNat (48 + n)

/-- Two-digit zero-padded decimal rendering (`%d` / `%m` in `strftime`). -/
def pad2n (n : Nat) : List Char :=
  if n < 10 then ['0', digitChar n]
  else [digitChar (n / 10), digitChar (n % 10)]

/-- Four-digit zero-padded decimal rendering (`%Y` in `strftime`). -/
def pad4n (n : Nat) : List Char :=
  [digitChar (n / 1000 % 10), digitChar (n / 100 % 10),
   digitChar (n / 10 % 10), digitChar (n % 10)]

/-- `date.strftime("%d.%m.%Y")`. -/
def fmtDMY (dt : Date) : String :=
  ⟨pad2n dt.day.toNat ++ '.' :: pad2n dt.month.toNat ++ '.' :: pad4n dt.year.toNat⟩

/-- Numeric value of a list of ASCII digit characters. -/
def digitsToNat (cs : List Char) : Nat :=
  cs.foldl (fun a c => 10 * a + (c.toNat - 48)) 0

/-- `datetime.strptime(s, "%d.%m.%Y")`: the day field is one or two digits
with value 1..31, the month field one or two digits with value 1..12, the
year field exactly four digits, the two separators are literal dots, the whole
string must be consumed, and the resulting components must form a valid
`datetime` (which also requires year at least 1). -/
def strptimeDMY (s : String) : Except PyErr Date :=
  let cs := s.data
  let r1 := cs.takeWhile Char.isDigit
  match cs.dropWhile Char.isDigit with
  | '.' :: t1 =>
    let r2 := t1.takeWhile Char.isDigit
    match t1.dropWhile Char.isDigit with
    | '.' :: t2 =>
      let r3 := t2.takeWhile Char.isDigit
      match t2.dropWhile Char.isDigit with
      | [] =>
        let dd := digitsToNat r1
        let mm := digitsToNat r2
        let yy := digitsToNat r3
        if 1 ≤ r1.length ∧ r1.length ≤ 2 ∧ 1 ≤ dd ∧ dd ≤ 31 ∧
           1 ≤ r2.length ∧ r2.length ≤ 2 ∧ 1 ≤ mm ∧ mm ≤ 12 ∧
           r3.length = 4 ∧ validDate (yy : Int) (mm : Int) (dd : Int) = true then
          .ok ⟨(yy : Int), (mm : Int), (dd : Int)⟩
        else .error (.valueError "time data does not match format")
      | _ => .error (.valueError "time data does not match format")
    | _ => .error (.valueError "time data does not match format")
  | _ => .error (.valueError "time data does not match format")

/-- `Birthday.__init__`: parses `DD.MM.YYYY` via `strptime`, re-raising any
`ValueError` with a fixed message. -/
def Birthday.init (value : String) : Except PyErr Date :=
  match strptimeDMY value with
  | .ok d => .ok d
  | .error _ => .error (.valueError "Invalid date format. Use DD.MM.YYYY")

/-- One contact: validated name, ordered list of validated phone strings,
optional birthday date (class `Record`). -/
structure Record where
  name : String
  phones : List String
  birthday : Option Date
  deriving DecidableEq

/-- `Record.add_birthday`: validates and sets/overwrites the birthday. -/
def Record.add_birthday (r : Record) (birthday : String) : Except PyErr Record :=
  match Birthday.init birthday with
  | .ok d => .ok { r with birthday := some d }
  | .error e => .error e

/-- `Record.add_phone`: validates via `Phone` and appends. -/
def Record.add_phone (r : Record) (phone : String) : Except PyErr Record :=
  match Phone.init phone with
  | .ok v => .ok { r with phones := r.phones ++ [v] }
  | .error e => .error e

/-- `Record.remove_phone`: `for ph in self.phones: if ph.value == phone:
self.phones.remove(ph)`. The Python list iterator keeps a numeric index into
the list being mutated, so removing the element under the cursor causes the
element immediately after it to be skipped (never examined); the scan then
continues. This is the per-list semantics of that loop. -/
def remove_phone : List String → String → List String
  | [], _ => []
  | x :: xs, p =>
    if x = p then
      match xs with
      | [] => []
      | y :: ys => y :: remove_phone ys p
    else x :: remove_phone xs p

/-- `Record.edit_phone(old, new)`: first an existence scan for `old`, then
validation of `new` (ten ASCII digits), and only then the update of every
matching entry; on failure the phone list is returned unchanged together with
the raised `ValueError`. -/
def Record.edit_phone (r : Record) (old_phone new_phone : String) : Record × Option PyErr :=
  if !(r.phones.any (fun p => p = old_phone)) then
    (r, some (.valueError "Phone number to edit does not exist."))
  else if !pyIsdigit new_phone || new_phone.length ≠ 10 then
    (r, some (.valueError "New phone number must be a 10-digit number."))
  else
    ({ r with phones := r.phones.map (fun p => if p = old_phone then new_phone else p) },
     none)

/-- `Record.find_phone`: first phone with the given value, else `None`. -/
def Record.find_phone (r : Record) (phone : String) : Option String :=
  r.phones.find? (fun p => p = phone)

/-- The `AddressBook` backing `dict`: an association list from name keys to
records, with first-occurrence key semantics and unique keys by construction. -/
abbrev Book := List (String × Record)

/-- `dict.__setitem__`: replace the entry holding the key, else append. -/
def dictInsert : Book → String → Record → Book
  | [], k, v => [(k, v)]
  | (k1, r) :: rest, k, v =>
    if k1 = k then (k, v) :: rest
    else (k1, r) :: dictInsert rest k v

/-- `name in dict`. -/
def containsKey (book : Book) (k : String) : Bool :=
  book.any (fun p => p.1 = k)

/-- `del dict[name]`: drop every entry with the key (there is at most one). -/
def removeKey (book : Book) (k : String) : Book :=
  book.filter (fun p => !(p.1 = k))

/-- `AddressBook.add_record`: `self.data[record.name.value] = record`. -/
def AddressBook.add_record (book : Book) (r : Record) : Book :=
  dictInsert book r.name r

/-- `AddressBook.find`: `self.data.get(name)`. -/
def AddressBook.find (book : Book) (name : String) : Option Record :=
  (book.find? (fun p => p.1 = name)).map (fun p => p.2)

/-- `AddressBook.delete`: delete the key if present, else raise
`ValueError("Name not found")`. -/
def AddressBook.delete (book : Book) (name : String) : Book × Option PyErr :=
  if containsKey book name then (removeKey book name, none)
  else (book, some (.valueError "Name not found"))

/-- The weekend roll-forward applied inside `get_upcoming_birthdays`:
Saturday moves 2 days forward, Sunday 1 day forward, otherwise unchanged. -/
def wshift (dt : Date) : Date :=
  if weekday dt = 5 then addDays dt 2
  else if weekday dt = 6 then addDays dt 1
  else dt

/-- `AddressBook.get_upcoming_birthdays`, parametrized by `today`
(`datetime.today().date()` in the source): for each record with a birthday,
project month/day onto `today`'s year via the `datetime` constructor (whose
`ValueError` aborts the whole call), skip dates strictly before today, include
dates less than 7 days ahead after weekend roll-forward, and emit
`(name, congratulation_date)` with the date formatted `DD.MM.YYYY`. -/
def AddressBook.get_upcoming_birthdays (today : Date) :
    List Record → Except PyErr (List (String × String))
  | [] => .ok []
  | r :: rs =>
    match r.birthday with
    | none => AddressBook.get_upcoming_birthdays today rs
    | some b =>
      match datetimeMk today.year b.month b.day with
      | .error e => .error e
      | .ok bty =>
        if dateLt bty today then AddressBook.get_upcoming_birthdays today rs
        else if timedeltaDays bty today < 7 then
          match AddressBook.get_upcoming_birthdays today rs with
          | .error e => .error e
          | .ok rest => .ok ((r.name, fmtDMY (wshift bty)) :: rest)
        else AddressBook.get_upcoming_birthdays today rs

/-- Message produced by the `input_error` decorator for each exception type. -/
def inputErrorMsg : PyErr → String
  | .keyError _ => "This command cannot be executed."
  | .valueError _ => "Give me name and phone please."
  | .indexError _ => "There is no such information."
  | .other m => "Error: " ++ m

/-- The `input_error` decorator applied to a handler body: the body yields a
final state (book and the messages already shown through the view) and an
outcome; on a raised exception the decorator returns the translated message
as the wrapped function's return value, otherwise it returns `None`. -/
def input_error (res : (Book × List String) × Except PyErr Unit) :
    (Book × List String) × Option String :=
  (res.1, match res.2 with
    | .ok _ => none
    | .error e => some (inputErrorMsg e))

/-- `dict`-entry update for in-place mutation of a found record: the entry
whose key matches keeps its key and gets the new record value. -/
def updateRecord (book : Book) (k : String) (r : Record) : Book :=
  book.map (fun p => if p.1 = k then (p.1, r) else p)

/-- Body of the `add_birthday` handler (before the decorator): unpack the two
arguments (a wrong count raises `ValueError` outside the inner `try`), look
the name up, and inside a `try`/`except ValueError` set the birthday, showing
either the success message or the raw `ValueError` text through the view. -/
def add_birthday_body (args : List String) (book : Book) :
    (Book × List String) × Except PyErr Unit :=
  match args with
  | [name, birthday] =>
    match AddressBook.find book name with
    | some record =>
      match record.add_birthday birthday with
      | .ok updated =>
        ((updateRecord book name updated, ["Birthday added for " ++ name ++ "."]), .ok ())
      | .error (.valueError m) => ((book, [m]), .ok ())
      | .error e => ((book, []), .error e)
    | none => ((book, ["Contact " ++ name ++ " not found."]), .ok ())
  | _ => ((book, []), .error (.valueError "not enough values to unpack"))

/-- The decorated `add_birthday` handler. -/
def add_birthday (args : List String) (book : Book) :
    (Book × List String) × Option String :=
  input_error (add_birthday_body args book)

/-- The `add` branch of `main`: arity check first, then the inline ten-digit
phone check, then `Record(name)` (whose `Name` validation can raise),
`add_phone`, `add_record`. Result: updated book, messages shown, and an
escaped exception if any. -/
def addCommand (args : List String) (book : Book) :
    (Book × List String) × Option PyErr :=
  match args with
  | [name, phone] =>
    if !pyIsdigit phone || phone.length ≠ 10 then
      ((book, ["Phone number must be a 10-digit number."]), none)
    else
      match Name.init name with
      | .error e => ((book, []), some e)
      | .ok nm =>
        ((AddressBook.add_record book ⟨nm, [phone], none⟩,
          ["Added new contact: " ++ name ++ " - " ++ phone]), none)
  | _ => ((book, ["Invalid number of arguments."]), none)

/-! ### Helper lemmas -/

/-- The inline ten-digit check (used by `Phone.__init__` and `edit_phone`)
fails exactly when the string is not ten ASCII digits. -/
theorem tenDigitCheckFalse (s : String) :
    (!pyIsdigit s || decide (s.length ≠ 10)) = false ↔
      s.length = 10 ∧ s.data.all Char.isDigit = true := by
  have hlen : s.length = s.data.length := rfl
  constructor
  · intro h
    have h12 := Bool.or_eq_false_iff.mp h
    have hpy : pyIsdigit s = true := by
      have := h12.1
      simpa using this
    have h10 : s.length = 10 := by
      have := h12.2
      simpa using this
    refine ⟨h10, ?_⟩
    unfold pyIsdigit at hpy
    exact (Bool.and_eq_true _ _ |>.mp hpy).2
  · rintro ⟨h10, hall⟩
    have hne : s.data.isEmpty = false := by
      cases hd : s.data with
      | nil => rw [hlen, hd] at h10; simp at h10
      | cons a l => simp [hd]
    have hpy : pyIsdigit s = true := by
      unfold pyIsdigit
      rw [hne, hall]
      rfl
    rw [hpy]
    simp [h10]

/-- C2: constructing a `Phone` from `s` succeeds (storing `s`) iff `s` has
length exactly 10 and every character is an ASCII decimal digit; otherwise it
fails with the phone `ValueError`. -/
theorem C2_phone_validation (s : String) :
    (Phone.init s = .ok s ↔ s.length = 10 ∧ s.data.all Char.isDigit = true) ∧
    (¬(s.length = 10 ∧ s.data.all Char.isDigit = true) →
      Phone.init s = .error (.valueError "Phone number must have 10 digits.")) := by
  have key := tenDigitCheckFalse s
  constructor
  · constructor
    · intro h
      cases hc : (!pyIsdigit s || decide (s.length ≠ 10)) with
      | false => exact key.mp hc
      | true =>
        unfold Phone.init at h
        rw [if_pos hc] at h
        exact absurd h (by simp)
    · intro hprops
      unfold Phone.init
      rw [if_neg]
      rw [key.mpr hprops]
      simp
  · intro hn
    unfold Phone.init
    rw [if_pos]
    cases hc : (!pyIsdigit s || decide (s.length ≠ 10)) with
    | false => exact absurd (key.mp hc) hn
    | true => rfl

/-- C2 witness: the concrete string of ten digits is accepted, a concrete
non-digit string is rejected with the `ValueError`. -/
theorem C2_witness :
    Phone.init "0123456789" = .ok "0123456789" ∧
    Phone.init "012345678x" = .error (.valueError "Phone number must have 10 digits.") :=
  ⟨(C2_phone_validation "0123456789").1.mpr (by decide),
   (C2_phone_validation "012345678x").2 (by decide)⟩

/-- C3: `edit_phone(old, new)` fails with the phone-not-found `ValueError`
when no phone equals `old`; fails with the new-phone `ValueError` when a match
exists but `new` is not ten ASCII digits; otherwise replaces the value of
every matching entry (fan-out over duplicates) and raises nothing. -/
theorem C3_edit_phone (r : Record) (o n : String) :
    (o ∉ r.phones →
      r.edit_phone o n = (r, some (.valueError "Phone number to edit does not exist."))) ∧
    (o ∈ r.phones → ¬(n.length = 10 ∧ n.data.all Char.isDigit = true) →
      r.edit_phone o n = (r, some (.valueError "New phone number must be a 10-digit number."))) ∧
    (o ∈ r.phones → (n.length = 10 ∧ n.data.all Char.isDigit = true) →
      r.edit_phone o n =
        ({ r with phones := r.phones.map (fun p => if p = o then n else p) }, none)) := by
  have hany : (r.phones.any (fun p => decide (p = o))) = true ↔ o ∈ r.phones := by
    simp [List.any_eq_true]
  have key := tenDigitCheckFalse n
  refine ⟨?_, ?_, ?_⟩
  · intro hno
    unfold Record.edit_phone
    rw [if_pos]
    simp only [Bool.not_eq_true']
    rw [Bool.eq_false_iff]
    intro hcontra
    exact hno (hany.mp hcontra)
  · intro hyes hbad
    unfold Record.edit_phone
    rw [if_neg, if_pos]
    · cases hc : (!pyIsdigit n || decide (n.length ≠ 10)) with
      | false => exact absurd (key.mp hc) hbad
      | true => rfl
    · simp only [Bool.not_eq_true', Bool.not_eq_false]
      exact hany.mpr hyes
  · intro hyes hgood
    unfold Record.edit_phone
    rw [if_neg, if_neg]
    · rw [key.mpr hgood]
      simp
    · simp only [Bool.not_eq_true', Bool.not_eq_false]
      exact hany.mpr hyes

/-- C3 witness: concrete instances of all three branches, including the
fan-out over a duplicated old phone. -/
theorem C3_witness :
    Record.edit_phone ⟨"A", ["1111111111"], none⟩ "2222222222" "3333333333" =
      (⟨"A", ["1111111111"], none⟩,
       some (.valueError "Phone number to edit does not exist.")) ∧
    Record.edit_phone ⟨"A", ["1111111111"], none⟩ "1111111111" "123" =
      (⟨"A", ["1111111111"], none⟩,
       some (.valueError "New phone number must be a 10-digit number.")) ∧
    Record.edit_phone ⟨"A", ["1111111111", "4444444444", "1111111111"], none⟩
        "1111111111" "3333333333" =
      (⟨"A", ["3333333333", "4444444444", "3333333333"], none⟩, none) :=
  ⟨(C3_edit_phone ⟨"A", ["1111111111"], none⟩ "2222222222" "3333333333").1 (by decide),
   (C3_edit_phone ⟨"A", ["1111111111"], none⟩ "1111111111" "123").2.1 (by decide) (by decide),
   by
    have := (C3_edit_phone ⟨"A", ["1111111111", "4444444444", "1111111111"], none⟩
      "1111111111" "3333333333").2.2 (by decide) (by decide)
    rw [this]; decide⟩

/-- C10: `edit_phone` is atomic on failure: whenever it raises, the record is
returned unchanged (both checks run before any entry is mutated). -/
theorem C10_edit_phone_atomic (r : Record) (o n : String) (e : PyErr)
    (h : (r.edit_phone o n).2 = some e) : (r.edit_phone o n).1 = r := by
  unfold Record.edit_phone at h ⊢
  split at h
  · rename_i h1
    rw [if_pos h1]
  · rename_i h1
    split at h
    · rename_i h2
      rw [if_neg h1, if_pos h2]
    · rename_i h2
      simp at h

/-- C10 witness: a concrete failing call leaves the record unchanged. -/
theorem C10_witness :
    (Record.edit_phone ⟨"A", ["1111111111"], none⟩ "2222222222" "3333333333").1 =
      ⟨"A", ["1111111111"], none⟩ :=
  C10_edit_phone_atomic ⟨"A", ["1111111111"], none⟩ "2222222222" "3333333333"
    (.valueError "Phone number to edit does not exist.") (by decide)

/-- C9: the `add` branch of the command loop with an argument count other
than 2 emits exactly "Invalid number of arguments.", leaves the book
unchanged, and raises nothing. -/
theorem C9_add_arity (args : List String) (book : Book) (h : args.length ≠ 2) :
    addCommand args book = ((book, ["Invalid number of arguments."]), none) := by
  match args with
  | [] => rfl
  | [a] => rfl
  | [a, b] => exact absurd rfl h
  | a :: b :: c :: rest => rfl

/-- C9 witness: one argument is rejected with no change to a concrete book. -/
theorem C9_witness :
    addCommand ["Bob"] [("A", ⟨"A", ["1111111111"], none⟩)] =
      (([("A", ⟨"A", ["1111111111"], none⟩)], ["Invalid number of arguments."]), none) :=
  C9_add_arity ["Bob"] [("A", ⟨"A", ["1111111111"], none⟩)] (by decide)

/-- C5 counterexample: on the phone list `[p, q, p]` with non-adjacent
duplicates of `p`, the mutate-while-iterating loop removes both occurrences
of `p`, not just the first (`List.erase` is first-occurrence removal, the
behavior the claim asserts). -/
theorem C5_counterexample :
    remove_phone ["1111111111", "2222222222", "1111111111"] "1111111111" =
      ["2222222222"] ∧
    List.erase ["1111111111", "2222222222", "1111111111"] "1111111111" =
      ["2222222222", "1111111111"] ∧
    remove_phone ["1111111111", "2222222222", "1111111111"] "1111111111" ≠
      List.erase ["1111111111", "2222222222", "1111111111"] "1111111111" :=
  ⟨by decide, by decide, by decide⟩

/-- C5 (amended): `remove_phone` never raises; if `p` is absent it is a
no-op; and on reaching the first occurrence of `p` it removes it, skips the
element immediately following it (which stays in the list unexamined), and
continues the same scan on the remainder — so only when the remaining matches
all sit in skipped positions (e.g. a single match, or two adjacent
duplicates) is exactly the first occurrence removed. -/
theorem C5_remove_phone_skip (p : String) (l l1 l2 : List String) :
    (p ∉ l → remove_phone l p = l) ∧
    (p ∉ l1 → remove_phone (l1 ++ p :: l2) p =
      l1 ++ l2.take 1 ++ remove_phone (l2.drop 1) p) := by
  have cons_ne : ∀ (x : String) (xs : List String), ¬ x = p →
      remove_phone (x :: xs) p = x :: remove_phone xs p := by
    intro x xs hx
    cases xs with
    | nil => simp [remove_phone, hx]
    | cons y ys => simp [remove_phone, hx]
  have cons_eq : ∀ xs : List String,
      remove_phone (p :: xs) p = xs.take 1 ++ remove_phone (xs.drop 1) p := by
    intro xs
    cases xs with
    | nil => simp [remove_phone]
    | cons y ys => simp [remove_phone]
  constructor
  · intro hp
    induction l with
    | nil => rfl
    | cons x xs ih =>
      have hx : ¬ x = p := fun hh => hp (List.mem_cons.mpr (Or.inl hh.symm))
      have hxs := ih (fun hm => hp (List.mem_cons.mpr (Or.inr hm)))
      rw [cons_ne x xs hx, hxs]
  · intro hp1
    induction l1 with
    | nil =>
      simp only [List.nil_append]
      exact cons_eq l2
    | cons a as ih =>
      have ha : ¬ a = p := fun hh => hp1 (List.mem_cons.mpr (Or.inl hh.symm))
      have has := ih (fun hm => hp1 (List.mem_cons.mpr (Or.inr hm)))
      rw [List.cons_append, cons_ne a _ ha, has]
      simp

/-- C5 witness: the no-op case and the skip-scan shape at concrete lists. -/
theorem C5_witness :
    remove_phone ["2222222222"] "1111111111" = ["2222222222"] ∧
    remove_phone (["2222222222"] ++ "1111111111" :: ["3333333333", "1111111111"])
        "1111111111" =
      ["2222222222"] ++ ["3333333333", "1111111111"].take 1 ++
        remove_phone (["3333333333", "1111111111"].drop 1) "1111111111" :=
  ⟨(C5_remove_phone_skip "1111111111" ["2222222222"] [] []).1 (by decide),
   (C5_remove_phone_skip "1111111111" [] ["2222222222"]
      ["3333333333", "1111111111"]).2 (by decide)⟩

/-- Looking up a key other than the removed one is unaffected by `removeKey`. -/
theorem find_removeKey_other (book : Book) (n k : String) (hk : k ≠ n) :
    AddressBook.find (removeKey book n) k = AddressBook.find book k := by
  induction book with
  | nil => rfl
  | cons p rest ih =>
    unfold AddressBook.find removeKey at ih ⊢
    rw [List.filter_cons]
    by_cases hp : p.1 = n
    · have hpk : ¬ p.1 = k := fun hh => hk (hh ▸ hp)
      rw [if_neg (by simp [hp]), List.find?_cons_of_neg _ (by simp [hpk])]
      exact ih
    · by_cases hpk : p.1 = k
      · rw [if_pos (by simp [hp]), List.find?_cons_of_pos _ (by simp [hpk]),
          List.find?_cons_of_pos _ (by simp [hpk])]
      · rw [if_pos (by simp [hp]), List.find?_cons_of_neg _ (by simp [hpk]),
          List.find?_cons_of_neg _ (by simp [hpk])]
        exact ih

/-- After `removeKey`, the removed key is no longer found. -/
theorem find_removeKey_self (book : Book) (n : String) :
    AddressBook.find (removeKey book n) n = none := by
  induction book with
  | nil => rfl
  | cons p rest ih =>
    unfold AddressBook.find removeKey at ih ⊢
    rw [List.filter_cons]
    by_cases hp : p.1 = n
    · rw [if_neg (by simp [hp])]
      exact ih
    · rw [if_pos (by simp [hp]), List.find?_cons_of_neg _ (by simp [hp])]
      exact ih

/-- C8: `delete(name)` raises `ValueError("Name not found")` (the failure the
spec calls `NotFoundError`) iff the name is not a key; on success it removes
exactly that key: the deleted name is no longer found and every other key
still maps to its previous record. -/
theorem C8_delete_behavior (book : Book) (name k : String) :
    (containsKey book name = false →
      AddressBook.delete book name = (book, some (.valueError "Name not found"))) ∧
    (containsKey book name = true →
      (AddressBook.delete book name).2 = none ∧
      AddressBook.find (AddressBook.delete book name).1 name = none ∧
      (k ≠ name →
        AddressBook.find (AddressBook.delete book name).1 k =
          AddressBook.find book k)) := by
  constructor
  · intro h
    unfold AddressBook.delete
    rw [if_neg]
    rw [h]
    simp
  · intro h
    unfold AddressBook.delete
    rw [if_pos h]
    exact ⟨rfl, find_removeKey_self book name,
      fun hk => find_removeKey_other book name k hk⟩

/-- C8 witness: deleting a present key on a concrete two-entry book, and the
failing delete of an absent key. -/
theorem C8_witness :
    (AddressBook.delete
      [("A", ⟨"A", [], none⟩), ("B", ⟨"B", [], none⟩)] "A").2 = none ∧
    AddressBook.find
      (AddressBook.delete
        [("A", ⟨"A", [], none⟩), ("B", ⟨"B", [], none⟩)] "A").1 "A" = none ∧
    AddressBook.find
      (AddressBook.delete
        [("A", ⟨"A", [], none⟩), ("B", ⟨"B", [], none⟩)] "A").1 "B" =
      AddressBook.find [("A", ⟨"A", [], none⟩), ("B", ⟨"B", [], none⟩)] "B" ∧
    AddressBook.delete [("A", ⟨"A", [], none⟩)] "C" =
      ([("A", ⟨"A", [], none⟩)], some (.valueError "Name not found")) := by
  have h1 := (C8_delete_behavior
    [("A", ⟨"A", [], none⟩), ("B", ⟨"B", [], none⟩)] "A" "B").2 (by decide)
  exact ⟨h1.1, h1.2.1, h1.2.2 (by decide),
    (C8_delete_behavior [("A", ⟨"A", [], none⟩)] "C" "B").1 (by decide)⟩

/-- The AddressBook representation invariant: every key equals the name
stored in its record. -/
def keyInv (book : Book) : Prop :=
  ∀ p ∈ book, p.1 = p.2.name

/-- `dict` insertion with a key equal to the record's name preserves the
key invariant. -/
theorem keyInv_dictInsert (book : Book) (k : String) (v : Record)
    (hinv : keyInv book) (hk : k = v.name) : keyInv (dictInsert book k v) := by
  induction book with
  | nil =>
    intro p hp
    simp [dictInsert] at hp
    rw [hp]
    exact hk
  | cons q rest ih =>
    have hq := hinv q (List.mem_cons_self q rest)
    have hrest : keyInv rest := fun p hp => hinv p (List.mem_cons_of_mem q hp)
    intro p hp
    unfold dictInsert at hp
    by_cases hq1 : q.1 = k
    · rw [if_pos hq1] at hp
      rcases List.mem_cons.mp hp with h | h
      · rw [h]; exact hk
      · exact hrest p h
    · rw [if_neg hq1] at hp
      rcases List.mem_cons.mp hp with h | h
      · rw [h]; exact hq
      · exact ih hrest p h

/-- Removing a key preserves the key invariant. -/
theorem keyInv_removeKey (book : Book) (n : String) (hinv : keyInv book) :
    keyInv (removeKey book n) :=
  fun p hp => hinv p (List.mem_of_mem_filter hp)

/-- Under the key invariant, a found record carries the looked-up name. -/
theorem find_some_name (book : Book) (nm : String) (rec : Record)
    (hinv : keyInv book) (h : AddressBook.find book nm = some rec) :
    rec.name = nm := by
  unfold AddressBook.find at h
  cases hf : book.find? (fun p => decide (p.1 = nm)) with
  | none => rw [hf] at h; simp at h
  | some q =>
    rw [hf] at h
    simp at h
    have hq1 : q.1 = nm := by
      have := List.find?_some hf
      simpa using this
    have hqm : q ∈ book := List.mem_of_find?_eq_some hf
    rw [← h, ← hinv q hqm]
    exact hq1

/-- Updating the record stored under a key with a record of that name
preserves the key invariant. -/
theorem keyInv_updateRecord (book : Book) (kk : String) (r2 : Record)
    (hinv : keyInv book) (hr : r2.name = kk) : keyInv (updateRecord book kk r2) := by
  intro p hp
  unfold updateRecord at hp
  rcases List.mem_map.mp hp with ⟨q, hq, hmap⟩
  by_cases hq1 : q.1 = kk
  · rw [if_pos hq1] at hmap
    rw [← hmap]
    exact hq1.trans hr.symm
  · rw [if_neg hq1] at hmap
    rw [← hmap]
    exact hinv q hq

/-- Insertion makes the inserted key map to the inserted record. -/
theorem find_dictInsert_self (book : Book) (k : String) (v : Record) :
    AddressBook.find (dictInsert book k v) k = some v := by
  induction book with
  | nil => simp [dictInsert, AddressBook.find]
  | cons q rest ih =>
    unfold dictInsert
    by_cases hq : q.1 = k
    · rw [if_pos hq]
      unfold AddressBook.find
      rw [List.find?_cons_of_pos _ (by simp)]
      rfl
    · rw [if_neg hq]
      unfold AddressBook.find at ih ⊢
      rw [List.find?_cons_of_neg _ (by simp [hq])]
      exact ih

/-- Insertion leaves every other key's lookup unchanged. -/
theorem find_dictInsert_other (book : Book) (k k2 : String) (v : Record)
    (hk : k2 ≠ k) :
    AddressBook.find (dictInsert book k v) k2 = AddressBook.find book k2 := by
  induction book with
  | nil =>
    unfold dictInsert AddressBook.find
    rw [List.find?_cons_of_neg _ (by simp; exact Ne.symm hk)]
  | cons q rest ih =>
    unfold dictInsert
    by_cases hq : q.1 = k
    · rw [if_pos hq]
      unfold AddressBook.find
      rw [List.find?_cons_of_neg _ (by simp; exact Ne.symm hk),
        List.find?_cons_of_neg _ (by simp [hq]; exact Ne.symm hk)]
    · rw [if_neg hq]
      unfold AddressBook.find at ih ⊢
      by_cases hq2 : q.1 = k2
      · rw [List.find?_cons_of_pos _ (by simp [hq2]),
          List.find?_cons_of_pos _ (by simp [hq2])]
      · rw [List.find?_cons_of_neg _ (by simp [hq2]),
          List.find?_cons_of_neg _ (by simp [hq2])]
        exact ih

/-- A successful `Record.add_birthday` only changes the birthday field. -/
theorem add_birthday_ok_name (r : Record) (b : String) (r2 : Record)
    (h : r.add_birthday b = .ok r2) : r2.name = r.name := by
  unfold Record.add_birthday at h
  cases hb : Birthday.init b with
  | ok d =>
    rw [hb] at h
    simp at h
    rw [← h]
  | error e =>
    rw [hb] at h
    exact absurd h (by simp)

/-- C6: every AddressBook key equals its record's name, and the invariant is
preserved by `add_record`, `delete`, the record mutators (which never change
the name), and the command handlers; after `add_record r`, `find r.name`
returns exactly `r`, and inserting over an existing key silently overwrites
while leaving every other key's binding unchanged. -/
theorem C6_key_invariant (book : Book) (r : Record) (nm k : String)
    (args : List String) :
    (keyInv book → keyInv (AddressBook.add_record book r)) ∧
    (keyInv book → keyInv (AddressBook.delete book nm).1) ∧
    (∀ o n2, ((r.edit_phone o n2).1).name = r.name) ∧
    (∀ b r2, r.add_birthday b = .ok r2 → r2.name = r.name) ∧
    (keyInv book → keyInv (add_birthday args book).1.1) ∧
    (keyInv book → keyInv (addCommand args book).1.1) ∧
    AddressBook.find (AddressBook.add_record book r) r.name = some r ∧
    (k ≠ r.name →
      AddressBook.find (AddressBook.add_record book r) k =
        AddressBook.find book k) := by
  refine ⟨fun h => keyInv_dictInsert book r.name r h rfl, ?_, ?_, ?_, ?_, ?_,
    find_dictInsert_self book r.name r,
    fun hk => find_dictInsert_other book r.name k r hk⟩
  · intro hinv
    unfold AddressBook.delete
    by_cases hc : containsKey book nm = true
    · rw [if_pos hc]
      exact keyInv_removeKey book nm hinv
    · rw [if_neg hc]
      exact hinv
  · intro o n2
    unfold Record.edit_phone
    split
    · rfl
    · split
      · rfl
      · rfl
  · exact fun b r2 h => add_birthday_ok_name r b r2 h
  · intro hinv
    match args with
    | [] => exact hinv
    | [a] => exact hinv
    | a :: b :: c :: rest => exact hinv
    | [name2, bd] =>
      show keyInv (add_birthday_body [name2, bd] book).1.1
      cases hf : AddressBook.find book name2 with
      | none =>
        simp only [add_birthday_body, hf]
        exact hinv
      | some record =>
        cases hr : record.add_birthday bd with
        | ok upd =>
          simp only [add_birthday_body, hf, hr]
          have hname : record.name = name2 :=
            find_some_name book name2 record hinv hf
          have hupd : upd.name = record.name :=
            add_birthday_ok_name record bd upd hr
          exact keyInv_updateRecord book name2 upd hinv (hupd.trans hname)
        | error e =>
          cases e with
          | valueError m => simp only [add_birthday_body, hf, hr]; exact hinv
          | keyError m => simp only [add_birthday_body, hf, hr]; exact hinv
          | indexError m => simp only [add_birthday_body, hf, hr]; exact hinv
          | other m => simp only [add_birthday_body, hf, hr]; exact hinv
  · intro hinv
    match args with
    | [] => exact hinv
    | [a] => exact hinv
    | a :: b :: c :: rest => exact hinv
    | [name2, phone2] =>
      simp only [addCommand]
      by_cases hp : (!pyIsdigit phone2 || decide (phone2.length ≠ 10)) = true
      · rw [if_pos hp]
        exact hinv
      · rw [if_neg hp]
        cases hni : Name.init name2 with
        | error e =>
          simp only [hni]
          exact hinv
        | ok nm2 =>
          simp only [hni]
          exact keyInv_dictInsert book nm2 ⟨nm2, [phone2], none⟩ hinv rfl

/-- C6 witness: the invariant, the find-back property, and the
other-keys-unchanged property at a concrete book and record. -/
theorem C6_witness :
    keyInv (AddressBook.add_record [("A", ⟨"A", [], none⟩)] ⟨"B", [], none⟩) ∧
    AddressBook.find (AddressBook.add_record [("A", ⟨"A", [], none⟩)]
      ⟨"B", [], none⟩) "B" = some ⟨"B", [], none⟩ ∧
    AddressBook.find (AddressBook.add_record [("A", ⟨"A", [], none⟩)]
      ⟨"B", [], none⟩) "A" = AddressBook.find [("A", ⟨"A", [], none⟩)] "A" :=
  ⟨(C6_key_invariant [("A", ⟨"A", [], none⟩)] ⟨"B", [], none⟩ "X" "A" []).1
      (by unfold keyInv; decide),
   (C6_key_invariant [("A", ⟨"A", [], none⟩)] ⟨"B", [], none⟩ "X" "A"
      []).2.2.2.2.2.2.1,
   (C6_key_invariant [("A", ⟨"A", [], none⟩)] ⟨"B", [], none⟩ "X" "A"
      []).2.2.2.2.2.2.2 (by decide)⟩

/-- C4 counterexample: with contact "John" present, `add-birthday John
99.99.2024` shows the raw text "Invalid date format. Use DD.MM.YYYY" through
the view and the decorator returns normally — not the claimed
"Give me name and phone please.". -/
theorem C4_counterexample :
    (add_birthday ["John", "99.99.2024"] [("John", ⟨"John", [], none⟩)]).1.2 =
      ["Invalid date format. Use DD.MM.YYYY"] ∧
    (add_birthday ["John", "99.99.2024"] [("John", ⟨"John", [], none⟩)]).2 =
      none ∧
    ("Invalid date format. Use DD.MM.YYYY" : String) ≠
      "Give me name and phone please." :=
  ⟨by decide, by decide, by decide⟩

/-- C4 (amended): the `input_error` layer maps `KeyError` (the code's
not-found kind) to "This command cannot be executed.", `ValueError` (the
validation kind) to "Give me name and phone please.", `IndexError` to
"There is no such information.", and any other exception to
"Error: <message>", passing the body's state through; but an invalid date
given to `add-birthday` never reaches the layer: the handler body catches
the `ValueError` itself, shows its raw message "Invalid date format. Use
DD.MM.YYYY", and returns normally. -/
theorem C4_input_error_translation (st : Book × List String) (m : String) :
    input_error (st, .error (.keyError m)) =
      (st, some "This command cannot be executed.") ∧
    input_error (st, .error (.valueError m)) =
      (st, some "Give me name and phone please.") ∧
    input_error (st, .error (.indexError m)) =
      (st, some "There is no such information.") ∧
    input_error (st, .error (.other m)) = (st, some ("Error: " ++ m)) ∧
    input_error (st, .ok ()) = (st, none) ∧
    (add_birthday ["John", "99.99.2024"] [("John", ⟨"John", [], none⟩)]).1.2 =
      ["Invalid date format. Use DD.MM.YYYY"] ∧
    (add_birthday ["John", "99.99.2024"] [("John", ⟨"John", [], none⟩)]).2 =
      none :=
  ⟨rfl, rfl, rfl, rfl, rfl, by decide, by decide⟩

/-- Whether a record's stored birthday month/day can be projected onto
`today`'s year by the `datetime` constructor without raising (true for
records with no birthday). -/
def projOK (today : Date) (r : Record) : Bool :=
  match r.birthday with
  | none => true
  | some b => validDate today.year b.month b.day

/-- The per-record inclusion rule exactly as the claim states it: the
birthday's month/day projected onto today's year is included iff it is not
strictly before today and is less than 7 days ahead, with a Saturday shifted
2 days forward and a Sunday 1 day forward, formatted `DD.MM.YYYY`. -/
def upcomingSpecEntry (today : Date) (r : Record) : Option (String × String) :=
  match r.birthday with
  | none => none
  | some b =>
    let proj : Date := ⟨today.year, b.month, b.day⟩
    if dateLt proj today = false ∧ timedeltaDays proj today < 7 then
      some (r.name, fmtDMY (wshift proj))
    else none

/-- C1: whenever every projection is constructible, `get_upcoming_birthdays`
returns exactly the records whose projected birthday is not strictly before
today and less than 7 days ahead, each paired with the weekend-rolled
congratulation date (in iteration order). -/
theorem C1_upcoming_window (today : Date) (recs : List Record)
    (h : ∀ r ∈ recs, projOK today r = true) :
    AddressBook.get_upcoming_birthdays today recs =
      .ok (recs.filterMap (upcomingSpecEntry today)) := by
  induction recs with
  | nil => rfl
  | cons r rs ih =>
    have hr : projOK today r = true := h r (List.mem_cons_self r rs)
    have ihs := ih (fun x hx => h x (List.mem_cons_of_mem r hx))
    cases hb : r.birthday with
    | none =>
      simp only [AddressBook.get_upcoming_birthdays, upcomingSpecEntry, hb,
        List.filterMap_cons]
      exact ihs
    | some b =>
      have hv : validDate today.year b.month b.day = true := by
        unfold projOK at hr
        rw [hb] at hr
        exact hr
      have hmk : datetimeMk today.year b.month b.day =
          .ok ⟨today.year, b.month, b.day⟩ := by
        unfold datetimeMk
        rw [if_pos hv]
      cases hlt : dateLt ⟨today.year, b.month, b.day⟩ today with
      | true =>
        simp [AddressBook.get_upcoming_birthdays, upcomingSpecEntry, hb,
          hmk, hlt, ihs]
      | false =>
        by_cases h7 : timedeltaDays ⟨today.year, b.month, b.day⟩ today < 7
        · simp [AddressBook.get_upcoming_birthdays, upcomingSpecEntry, hb,
            hmk, hlt, h7, ihs]
        · simp [AddressBook.get_upcoming_birthdays, upcomingSpecEntry, hb,
            hmk, hlt, h7, ihs]

/-- C1 witness: with today = 2024-06-10 (a Monday), a birthday on 06-15
(Saturday) is included as "17.06.2024", one on 06-16 (Sunday) also as
"17.06.2024", and one on 06-09 is excluded. -/
theorem C1_witness :
    AddressBook.get_upcoming_birthdays ⟨2024, 6, 10⟩
      [⟨"Alice", [], some ⟨1990, 6, 15⟩⟩, ⟨"Bob", [], some ⟨1985, 6, 16⟩⟩,
       ⟨"Carol", [], some ⟨2000, 6, 9⟩⟩] =
      .ok [("Alice", "17.06.2024"), ("Bob", "17.06.2024")] := by
  rw [C1_upcoming_window ⟨2024, 6, 10⟩
    [⟨"Alice", [], some ⟨1990, 6, 15⟩⟩, ⟨"Bob", [], some ⟨1985, 6, 16⟩⟩,
     ⟨"Carol", [], some ⟨2000, 6, 9⟩⟩] (by decide)]
  decide

/-- Each digit character is an ASCII digit and decodes to its value. -/
theorem digitChar_spec : ∀ k < 10,
    (digitChar k).isDigit = true ∧ (digitChar k).toNat - 48 = k := by decide

set_option maxRecDepth 2000 in
/-- `pad2n` of a value below 100 is one-or-two (always two) digit characters
decoding back to the value. -/
theorem pad2n_spec : ∀ n < 100, (∀ c ∈ pad2n n, c.isDigit = true) ∧
    digitsToNat (pad2n n) = n ∧ 1 ≤ (pad2n n).length ∧ (pad2n n).length ≤ 2 := by
  decide

/-- `pad4n` of a value below 10000 is four digit characters decoding back to
the value. -/
theorem pad4n_spec (n : Nat) (hn : n < 10000) :
    (∀ c ∈ pad4n n, c.isDigit = true) ∧
    digitsToNat (pad4n n) = n ∧ (pad4n n).length = 4 := by
  have ha : n / 1000 % 10 < 10 := Nat.mod_lt _ (by norm_num)
  have hb : n / 100 % 10 < 10 := Nat.mod_lt _ (by norm_num)
  have hc : n / 10 % 10 < 10 := Nat.mod_lt _ (by norm_num)
  have hd : n % 10 < 10 := Nat.mod_lt _ (by norm_num)
  refine ⟨?_, ?_, rfl⟩
  · intro c hcm
    simp only [pad4n, List.mem_cons, List.not_mem_nil, or_false] at hcm
    rcases hcm with h | h | h | h <;> rw [h]
    · exact (digitChar_spec _ ha).1
    · exact (digitChar_spec _ hb).1
    · exact (digitChar_spec _ hc).1
    · exact (digitChar_spec _ hd).1
  · unfold pad4n digitsToNat
    simp only [List.foldl_cons, List.foldl_nil]
    rw [(digitChar_spec _ ha).2, (digitChar_spec _ hb).2,
      (digitChar_spec _ hc).2, (digitChar_spec _ hd).2]
    omega

/-- Scanning digits stops exactly at the separating dot. -/
theorem takeWhile_digits_append (l r : List Char)
    (hl : ∀ c ∈ l, c.isDigit = true) :
    (l ++ '.' :: r).takeWhile Char.isDigit = l ∧
    (l ++ '.' :: r).dropWhile Char.isDigit = '.' :: r := by
  have hdot : Char.isDigit '.' = false := by decide
  induction l with
  | nil =>
    constructor
    · simp [List.takeWhile_cons, hdot]
    · simp [List.dropWhile_cons, hdot]
  | cons a as ih =>
    have ha := hl a (List.mem_cons_self a as)
    have ihs := ih (fun c hcm => hl c (List.mem_cons_of_mem a hcm))
    constructor
    · simp [List.takeWhile_cons, ha, ihs.1]
    · simp [List.dropWhile_cons, ha, ihs.2]

/-- Scanning an all-digit list consumes it entirely. -/
theorem takeWhile_digits_all (l : List Char) (hl : ∀ c ∈ l, c.isDigit = true) :
    l.takeWhile Char.isDigit = l ∧ l.dropWhile Char.isDigit = [] := by
  induction l with
  | nil => exact ⟨rfl, rfl⟩
  | cons a as ih =>
    have ha := hl a (List.mem_cons_self a as)
    have ihs := ih (fun c hcm => hl c (List.mem_cons_of_mem a hcm))
    exact ⟨by simp [List.takeWhile_cons, ha, ihs.1],
      by simp [List.dropWhile_cons, ha, ihs.2]⟩

/-- A successful parse determines natural components inside the parser's
bounds. -/
theorem strptime_ok_bounds (s : String) (d : Date) (h : strptimeDMY s = .ok d) :
    ∃ yy mm dd : Nat, d = ⟨(yy : Int), (mm : Int), (dd : Int)⟩ ∧
      1 ≤ dd ∧ dd ≤ 31 ∧ 1 ≤ mm ∧ mm ≤ 12 ∧ yy ≤ 9999 ∧
      validDate (yy : Int) (mm : Int) (dd : Int) = true := by
  simp only [strptimeDMY] at h
  split at h
  · split at h
    · split at h
      · split at h
        · rename_i hcond
          obtain ⟨c1, c2, c3, c4, c5, c6, c7, c8, c9, c10⟩ := hcond
          refine ⟨_, _, _, ?_, c3, c4, c7, c8, ?_, c10⟩
          · injection h with h2
            exact h2.symm
          · have := c10
            simp only [validDate, Bool.and_eq_true, decide_eq_true_eq] at this
            exact_mod_cast this.1.1.1.1.2
        · exact absurd h (by simp)
      · exact absurd h (by simp)
    · exact absurd h (by simp)
  · exact absurd h (by simp)

/-- Formatting in-bounds components with `%d.%m.%Y` and re-parsing recovers
exactly the components. -/
theorem strptime_fmt_roundtrip (yy mm dd : Nat)
    (h1 : 1 ≤ dd) (h2 : dd ≤ 31) (h3 : 1 ≤ mm) (h4 : mm ≤ 12) (h5 : yy ≤ 9999)
    (hv : validDate (yy : Int) (mm : Int) (dd : Int) = true) :
    strptimeDMY (fmtDMY ⟨(yy : Int), (mm : Int), (dd : Int)⟩) =
      .ok ⟨(yy : Int), (mm : Int), (dd : Int)⟩ := by
  obtain ⟨pd1, pd2, pd3, pd4⟩ := pad2n_spec dd (by omega)
  obtain ⟨pm1, pm2, pm3, pm4⟩ := pad2n_spec mm (by omega)
  obtain ⟨py1, py2, py3⟩ := pad4n_spec yy (by omega)
  have tw1 := takeWhile_digits_append (pad2n dd) (pad2n mm ++ '.' :: pad4n yy) pd1
  have tw2 := takeWhile_digits_append (pad2n mm) (pad4n yy) pm1
  have tw3 := takeWhile_digits_all (pad4n yy) py1
  have hdata : (fmtDMY ⟨(yy : Int), (mm : Int), (dd : Int)⟩).data =
      pad2n dd ++ ('.' :: (pad2n mm ++ ('.' :: pad4n yy))) := by
    simp [fmtDMY]
  simp only [strptimeDMY, hdata, tw1.1, tw1.2, tw2.1, tw2.2, tw3.1, tw3.2,
    pd2, pm2, py2]
  rw [if_pos ⟨pd3, pd4, h1, h2, pm3, pm4, h3, h4, py3, hv⟩]

/-- C7: for every string the Birthday validator accepts, formatting the
stored date with the `DD.MM.YYYY` pattern and re-parsing yields an equal
date. -/
theorem C7_birthday_roundtrip (s : String) (d : Date)
    (h : Birthday.init s = .ok d) : Birthday.init (fmtDMY d) = .ok d := by
  have hs : strptimeDMY s = .ok d := by
    unfold Birthday.init at h
    cases hp : strptimeDMY s with
    | ok d1 =>
      rw [hp] at h
      simp at h
      rw [h]
    | error e =>
      rw [hp] at h
      simp at h
  obtain ⟨yy, mm, dd, hdeq, b1, b2, b3, b4, b5, hv⟩ := strptime_ok_bounds s d hs
  have hrt := strptime_fmt_roundtrip yy mm dd b1 b2 b3 b4 b5 hv
  rw [hdeq]
  simp [Birthday.init, hrt]

/-- C7 witness: a concrete accepted input round-trips. -/
theorem C7_witness :
    Birthday.init "07.03.1999" = .ok ⟨1999, 3, 7⟩ ∧
    Birthday.init (fmtDMY ⟨1999, 3, 7⟩) = .ok ⟨1999, 3, 7⟩ :=
  ⟨by decide, C7_birthday_roundtrip "07.03.1999" ⟨1999, 3, 7⟩ (by decide)⟩
